import Mathlib

/-!
Verification of the OptiTrack rigid-body tracker's core math and catalog
boundary, shallowly embedded from the Python sources
(`position_calculations.py`, `rigid_body_tracker.py`,
`visualize_points.py`, `realtime_visualization.py`) with real-number
arithmetic in place of IEEE floats.
-/

namespace OptiTrack

/-- 3-vectors (positions, offsets), as in the numpy arrays of the source. -/
abbrev Vec3 := Fin 3 → ℝ

/-- Quaternions as 4 raw components; `quaternion_to_rotation_matrix`
destructures them in `[x, y, z, w]` order exactly as the Python
`x, y, z, w = q` does. -/
abbrev Quat := Fin 4 → ℝ

/-- The literal matrix formula of `position_calculations.py` lines 27-31,
applied to already-normalized components. -/
def rotFormula (x y z w : ℝ) : Matrix (Fin 3) (Fin 3) ℝ :=
  Matrix.of
    ![![1 - 2*(y*y + z*z), 2*(x*y - w*z), 2*(x*z + w*y)],
      ![2*(x*y + w*z), 1 - 2*(x*x + z*z), 2*(y*z - w*x)],
      ![2*(x*z - w*y), 2*(y*z + w*x), 1 - 2*(x*x + y*y)]]

/-- `PositionCalculator.quaternion_to_rotation_matrix` from
`position_calculations.py` lines 16-32: compute the Euclidean norm of the
four components, fall back to the identity matrix when that norm is exactly
zero, otherwise normalize by it and apply the standard quadratic formula. -/
noncomputable def quaternion_to_rotation_matrix (q : Quat) : Matrix (Fin 3) (Fin 3) ℝ :=
  if Real.sqrt (q 0 * q 0 + q 1 * q 1 + q 2 * q 2 + q 3 * q 3) = 0 then 1
  else
    rotFormula
      (q 0 / Real.sqrt (q 0 * q 0 + q 1 * q 1 + q 2 * q 2 + q 3 * q 3))
      (q 1 / Real.sqrt (q 0 * q 0 + q 1 * q 1 + q 2 * q 2 + q 3 * q 3))
      (q 2 / Real.sqrt (q 0 * q 0 + q 1 * q 1 + q 2 * q 2 + q 3 * q 3))
      (q 3 / Real.sqrt (q 0 * q 0 + q 1 * q 1 + q 2 * q 2 + q 3 * q 3))

/-- `PositionCalculator.calculate_updated_stylus_position` from
`position_calculations.py` lines 34-73: re-express the world-axis offset of
the stylus in the reference tracker's local frame, carry it to the new
orientation, and add it to the new tracker position. -/
noncomputable def calculate_updated_stylus_position
    (reference_position : Vec3) (reference_rotation : Quat)
    (reference_stylus_pos : Vec3)
    (new_position : Vec3) (new_rotation : Quat) : Vec3 :=
  let R_ref := quaternion_to_rotation_matrix reference_rotation
  let R_new := quaternion_to_rotation_matrix new_rotation
  let offset_in_ref_frame := reference_stylus_pos - reference_position
  let offset_local := R_ref.transpose.mulVec offset_in_ref_frame
  let offset_in_new_frame := R_new.mulVec offset_local
  new_position + offset_in_new_frame

/-- Result record of `PositionCalculator.calculate_position_error`. -/
structure PositionError where
  x_error : ℝ
  y_error : ℝ
  z_error : ℝ
  magnitude : ℝ

/-- `PositionCalculator.calculate_position_error` from
`position_calculations.py` lines 75-97: componentwise difference
`actual - calculated` together with its Euclidean norm. -/
noncomputable def calculate_position_error
    (calculated_position actual_position : Vec3) : PositionError :=
  let error := actual_position - calculated_position
  { x_error := error 0
    y_error := error 1
    z_error := error 2
    magnitude := Real.sqrt (∑ i : Fin 3, (error i) ^ 2) }

/-- `PositionCalculator.convert_to_millimeters`
(`position_calculations.py` lines 99-109): elementwise `* 1000`. -/
def convert_to_millimeters (position_meters : List ℝ) : List ℝ :=
  position_meters.map (fun pos => pos * 1000)

/-- `PositionCalculator.convert_to_meters`
(`position_calculations.py` lines 111-121): elementwise `/ 1000`. -/
noncomputable def convert_to_meters (position_millimeters : List ℝ) : List ℝ :=
  position_millimeters.map (fun pos => pos / 1000)

/-- The squared Euclidean magnitude of the four quaternion components
(the quantity whose square root line 21 of `position_calculations.py`
takes). -/
def sumsq (q : Quat) : ℝ := q 0 * q 0 + q 1 * q 1 + q 2 * q 2 + q 3 * q 3

/-- The normalized quaternion: every component divided by the Euclidean
norm, as in line 24 of `position_calculations.py`. -/
noncomputable def normalizedQuat (q : Quat) : Quat :=
  fun i => q i / Real.sqrt (sumsq q)

/-- One parsed row of the reference catalog CSV, with the header fields
the loaders read (`Point_Number`, `Femur_Pos_{X,Y,Z}_mm`,
`Femur_Rot_{W,X,Y,Z}`, `Stylus_Pos_{X,Y,Z}_mm`). -/
structure CsvRow where
  Point_Number : String
  Femur_Pos_X_mm : ℝ
  Femur_Pos_Y_mm : ℝ
  Femur_Pos_Z_mm : ℝ
  Femur_Rot_W : ℝ
  Femur_Rot_X : ℝ
  Femur_Rot_Y : ℝ
  Femur_Rot_Z : ℝ
  Stylus_Pos_X_mm : ℝ
  Stylus_Pos_Y_mm : ℝ
  Stylus_Pos_Z_mm : ℝ

/-- The femur position vector extracted from a catalog row. -/
def femur_pos_of_row (row : CsvRow) : Vec3 :=
  ![row.Femur_Pos_X_mm, row.Femur_Pos_Y_mm, row.Femur_Pos_Z_mm]

/-- The stylus position vector extracted from a catalog row. -/
def stylus_pos_of_row (row : CsvRow) : Vec3 :=
  ![row.Stylus_Pos_X_mm, row.Stylus_Pos_Y_mm, row.Stylus_Pos_Z_mm]

/-- The quaternion list assembled at the data-loading boundary
(`rigid_body_tracker.py` lines 650-655, `visualize_points.py` lines
166-171, `realtime_visualization.py` lines 53-58): the four `Femur_Rot_*`
fields are taken in the order W, X, Y, Z and passed on unchanged to
`calculate_updated_stylus_position` / `quaternion_to_rotation_matrix`. -/
def femur_rotation_loaded (row : CsvRow) : Quat :=
  ![row.Femur_Rot_W, row.Femur_Rot_X, row.Femur_Rot_Y, row.Femur_Rot_Z]

/-- Modelled from the spec's words (§6 and §9 of the specification): the
reordering the spec requires at the data-loading boundary, producing the
`[x, y, z, w]` order that `quaternion_to_rotation_matrix` consumes.  This
definition exists to be compared with `femur_rotation_loaded`, the order
the source code actually passes. -/
def femur_rotation_reordered (row : CsvRow) : Quat :=
  ![row.Femur_Rot_X, row.Femur_Rot_Y, row.Femur_Rot_Z, row.Femur_Rot_W]

/-- Entry stored by `RealtimeVisualizer.load_reference_data`
(`realtime_visualization.py` lines 67-71). -/
structure RefEntry where
  femur_pos : Vec3
  femur_rot : Quat
  stylus_pos : Vec3

/-- The reference-data dictionary of `RealtimeVisualizer`, keyed by
point label. -/
abbrev RefCatalog := String → Option RefEntry

/-- The dictionary built row by row in the loading loop of
`load_reference_data`; Python dict assignment lets later rows overwrite
earlier ones with the same label. -/
def buildRefCatalog (rows : List CsvRow) : RefCatalog :=
  rows.foldl
    (fun acc row => fun label =>
      if label = row.Point_Number then
        some ⟨femur_pos_of_row row, femur_rotation_loaded row, stylus_pos_of_row row⟩
      else acc label)
    (fun _ => none)

/-- The external tabular source as seen by a loader: `none` models a
missing or unreadable file (`open` raises `FileNotFoundError`); a row of
`none` models a malformed row whose field access or float parse raises. -/
abbrev CsvSource := Option (List (Option CsvRow))

/-- Row-by-row parsing of the raw source, as the loaders' `for row in
reader` loops do: the first malformed row raises, aborting the whole
parse; otherwise all parsed rows are produced in order. -/
def parseAll : List (Option CsvRow) → Option (List CsvRow)
  | [] => some []
  | none :: _ => none
  | some r :: t => (parseAll t).map (fun rows => r :: rows)

/-- `RealtimeVisualizer.load_reference_data`
(`realtime_visualization.py` lines 37-78): every failure — missing file or
any malformed row — is caught and leaves the catalog as the empty
dictionary; only a fully clean parse produces entries. -/
def load_reference_data : CsvSource → RefCatalog
  | none => fun _ => none
  | some raws =>
    match parseAll raws with
    | none => fun _ => none
    | some rows => buildRefCatalog rows

/-- Entry stored by `load_csv_data` in `visualize_points.py`
(lines 36-39): femur and stylus positions only. -/
structure PointEntry where
  femur : Vec3
  stylus : Vec3

/-- The `points` dictionary of `visualize_points.py`, keyed by
`Point_Number`. -/
abbrev PointCatalog := String → Option PointEntry

/-- The dictionary built by the loading loop of `load_csv_data`
(`visualize_points.py` lines 15-41); later rows with the same label
overwrite earlier ones, as with a Python dict. -/
def buildPoints (rows : List CsvRow) : PointCatalog :=
  rows.foldl
    (fun acc row => fun label =>
      if label = row.Point_Number then
        some ⟨femur_pos_of_row row, stylus_pos_of_row row⟩
      else acc label)
    (fun _ => none)

/-- The exception `load_csv_data` lets escape to its caller. -/
inductive LoadError where
  | fileNotFound
  | malformedRow

/-- `load_csv_data` from `visualize_points.py` lines 13-41: the function
body has no try/except, so a missing file or a malformed row raises to the
caller (modelled as `Except.error`); only a clean parse returns the
dictionary. -/
def load_csv_data : CsvSource → Except LoadError PointCatalog
  | none => Except.error LoadError.fileNotFound
  | some raws =>
    match parseAll raws with
    | none => Except.error LoadError.malformedRow
    | some rows => Except.ok (buildPoints rows)

/-- The lookup-and-extract step of `RigidBodyTracker.calculate_mapped_point`
(`rigid_body_tracker.py` lines 631-642) and of `calculate_point_position`
(`visualize_points.py` lines 148-157): an absent label prints an error and
returns `None`; a present label yields its femur and stylus reference
positions.  The dictionary itself is only read, never written, which the
model records by returning the catalog alongside the result. -/
def lookup_mapped_point (points : PointCatalog) (label : String) :
    Option (Vec3 × Vec3) × PointCatalog :=
  match points label with
  | none => (none, points)
  | some entry => (some (entry.femur, entry.stylus), points)

/-- A load attempt doomed to fail: the file is missing, or some row is
malformed. -/
def badSource (src : CsvSource) : Prop :=
  src = none ∨ ∃ raws, src = some raws ∧ none ∈ raws

/-- Concrete catalog row encoding the identity orientation: quaternion
(W, X, Y, Z) = (1, 0, 0, 0). -/
def row0 : CsvRow :=
  ⟨"L1", 0, 0, 0, 1, 0, 0, 0, 0, 0, 0⟩

/-- Concrete catalog entry used to exercise the lookup path. -/
def witEntry : PointEntry := ⟨![1, 2, 3], ![4, 5, 6]⟩

/-- Concrete one-entry catalog used to exercise the lookup path. -/
def witPts : PointCatalog :=
  fun label => if label = "L1" then some witEntry else none

theorem rotFormula_transpose_mul (x y z w : ℝ)
    (h : x * x + y * y + z * z + w * w = 1) :
    (rotFormula x y z w).transpose * rotFormula x y z w = 1 := by
  ext i j
  rw [Matrix.mul_apply]
  simp only [Matrix.transpose_apply]
  fin_cases i <;> fin_cases j <;>
    simp [rotFormula, Fin.sum_univ_three, Matrix.one_apply]
  · linear_combination (4*y*y + 4*z*z) * h
  · linear_combination (-4*x*y) * h
  · linear_combination (-4*x*z) * h
  · linear_combination (-4*x*y) * h
  · linear_combination (4*x*x + 4*z*z) * h
  · linear_combination (-4*y*z) * h
  · linear_combination (-4*x*z) * h
  · linear_combination (-4*y*z) * h
  · linear_combination (4*x*x + 4*y*y) * h

theorem rotFormula_det (x y z w : ℝ)
    (h : x * x + y * y + z * z + w * w = 1) :
    (rotFormula x y z w).det = 1 := by
  rw [Matrix.det_fin_three]
  simp only [rotFormula, Matrix.of_apply, Matrix.cons_val', Matrix.cons_val_zero,
    Matrix.cons_val_one, Matrix.head_cons, Matrix.empty_val', Matrix.cons_val_fin_one,
    Matrix.head_fin_const, Matrix.cons_val_two, Matrix.tail_cons]
  linear_combination (4*x*x + 4*y*y + 4*z*z) * h

theorem rotFormula_sign (e x y z w : ℝ) (h : e * e = 1) :
    rotFormula (e*x) (e*y) (e*z) (e*w) = rotFormula x y z w := by
  ext i j
  fin_cases i <;> fin_cases j <;> simp [rotFormula]
  · linear_combination (y*y + z*z) * h
  · linear_combination (x*y - w*z) * h
  · linear_combination (x*z + w*y) * h
  · linear_combination (x*y + w*z) * h
  · linear_combination (x*x + z*z) * h
  · linear_combination (y*z - w*x) * h
  · linear_combination (x*z - w*y) * h
  · linear_combination (y*z + w*x) * h
  · linear_combination (x*x + y*y) * h

theorem sumsq_nonneg (q : Quat) : 0 ≤ sumsq q :=
  add_nonneg (add_nonneg (add_nonneg (mul_self_nonneg _) (mul_self_nonneg _))
    (mul_self_nonneg _)) (mul_self_nonneg _)

theorem sumsq_eq_zero_iff (q : Quat) : sumsq q = 0 ↔ q = 0 := by
  constructor
  · intro h
    unfold sumsq at h
    funext i
    have h0 : q 0 * q 0 = 0 := le_antisymm
      (by linarith [mul_self_nonneg (q 1), mul_self_nonneg (q 2), mul_self_nonneg (q 3)])
      (mul_self_nonneg _)
    have h1 : q 1 * q 1 = 0 := le_antisymm
      (by linarith [mul_self_nonneg (q 0), mul_self_nonneg (q 2), mul_self_nonneg (q 3)])
      (mul_self_nonneg _)
    have h2 : q 2 * q 2 = 0 := le_antisymm
      (by linarith [mul_self_nonneg (q 0), mul_self_nonneg (q 1), mul_self_nonneg (q 3)])
      (mul_self_nonneg _)
    have h3 : q 3 * q 3 = 0 := le_antisymm
      (by linarith [mul_self_nonneg (q 0), mul_self_nonneg (q 1), mul_self_nonneg (q 2)])
      (mul_self_nonneg _)
    fin_cases i
    · exact mul_self_eq_zero.mp h0
    · exact mul_self_eq_zero.mp h1
    · exact mul_self_eq_zero.mp h2
    · exact mul_self_eq_zero.mp h3
  · intro h
    subst h
    simp [sumsq]

theorem rotmat_of_sumsq_zero (q : Quat) (h : sumsq q = 0) :
    quaternion_to_rotation_matrix q = 1 := by
  unfold quaternion_to_rotation_matrix
  rw [show q 0 * q 0 + q 1 * q 1 + q 2 * q 2 + q 3 * q 3 = sumsq q from rfl, h]
  simp

theorem rotmat_of_sumsq_ne_zero (q : Quat) (h : sumsq q ≠ 0) :
    quaternion_to_rotation_matrix q =
      rotFormula (q 0 / Real.sqrt (sumsq q)) (q 1 / Real.sqrt (sumsq q))
        (q 2 / Real.sqrt (sumsq q)) (q 3 / Real.sqrt (sumsq q)) := by
  unfold quaternion_to_rotation_matrix
  rw [show q 0 * q 0 + q 1 * q 1 + q 2 * q 2 + q 3 * q 3 = sumsq q from rfl]
  rw [if_neg]
  intro hc
  exact h ((Real.sqrt_eq_zero (sumsq_nonneg q)).mp hc)

theorem unit_of_normalized (q : Quat) (h : sumsq q ≠ 0) :
    q 0 / Real.sqrt (sumsq q) * (q 0 / Real.sqrt (sumsq q)) +
    q 1 / Real.sqrt (sumsq q) * (q 1 / Real.sqrt (sumsq q)) +
    q 2 / Real.sqrt (sumsq q) * (q 2 / Real.sqrt (sumsq q)) +
    q 3 / Real.sqrt (sumsq q) * (q 3 / Real.sqrt (sumsq q)) = 1 := by
  have hnn := sumsq_nonneg q
  have hss : Real.sqrt (sumsq q) * Real.sqrt (sumsq q) = sumsq q := Real.mul_self_sqrt hnn
  simp only [div_mul_div_comm, hss, div_add_div_same]
  exact div_self h

theorem rotmat_transpose_mul_self (q : Quat) :
    (quaternion_to_rotation_matrix q).transpose * quaternion_to_rotation_matrix q = 1 := by
  by_cases hs : sumsq q = 0
  · rw [rotmat_of_sumsq_zero q hs, Matrix.transpose_one, one_mul]
  · rw [rotmat_of_sumsq_ne_zero q hs]
    exact rotFormula_transpose_mul _ _ _ _ (unit_of_normalized q hs)

theorem rotmat_mul_transpose_self (q : Quat) :
    quaternion_to_rotation_matrix q * (quaternion_to_rotation_matrix q).transpose = 1 :=
  Matrix.mul_eq_one_comm.mp (rotmat_transpose_mul_self q)

theorem rotmat_det_one (q : Quat) (h : sumsq q ≠ 0) :
    (quaternion_to_rotation_matrix q).det = 1 := by
  rw [rotmat_of_sumsq_ne_zero q h]
  exact rotFormula_det _ _ _ _ (unit_of_normalized q h)

theorem rotmat_smul (c : ℝ) (q : Quat) (hc : c ≠ 0) :
    quaternion_to_rotation_matrix (c • q) = quaternion_to_rotation_matrix q := by
  have hsum : sumsq (c • q) = c ^ 2 * sumsq q := by
    simp only [sumsq, Pi.smul_apply, smul_eq_mul]; ring
  by_cases hs : sumsq q = 0
  · rw [rotmat_of_sumsq_zero q hs, rotmat_of_sumsq_zero (c • q) (by rw [hsum, hs, mul_zero])]
  · have hs' : sumsq (c • q) ≠ 0 := by
      rw [hsum]; exact mul_ne_zero (pow_ne_zero 2 hc) hs
    rw [rotmat_of_sumsq_ne_zero q hs, rotmat_of_sumsq_ne_zero (c • q) hs']
    have hsqrt : Real.sqrt (sumsq (c • q)) = |c| * Real.sqrt (sumsq q) := by
      rw [hsum, Real.sqrt_mul (sq_nonneg c), Real.sqrt_sq_eq_abs]
    have he : c / |c| * (c / |c|) = 1 := by
      rw [div_mul_div_comm, abs_mul_abs_self]
      exact div_self (mul_ne_zero hc hc)
    rw [← rotFormula_sign (c / |c|)
      (q 0 / Real.sqrt (sumsq q)) (q 1 / Real.sqrt (sumsq q))
      (q 2 / Real.sqrt (sumsq q)) (q 3 / Real.sqrt (sumsq q)) he]
    simp only [hsqrt, Pi.smul_apply, smul_eq_mul, div_mul_div_comm]

theorem reproject_same_rotation (p s np : Vec3) (q : Quat) :
    calculate_updated_stylus_position p q s np q = np + (s - p) := by
  unfold calculate_updated_stylus_position
  simp only [Matrix.mulVec_mulVec, rotmat_mul_transpose_self, Matrix.one_mulVec]


/-- Claim C1: identity reprojection — with the current pose equal to the
reference pose (same position, orientation equal up to a nonzero scalar
multiple, which covers sign flip and normalization), the reprojection
returns the reference target position exactly. -/
theorem C1_identity_reprojection (p s : Vec3) (q : Quat) (c : ℝ) (hc : c ≠ 0) :
    calculate_updated_stylus_position p q s p (c • q) = s := by
  unfold calculate_updated_stylus_position
  simp only [rotmat_smul c q hc, Matrix.mulVec_mulVec, rotmat_mul_transpose_self,
    Matrix.one_mulVec]
  abel

/-- Witness for C1 at a concrete pose: reference at the origin with
quaternion [0,0,0,1], target at [10,0,0]. -/
theorem C1_identity_reprojection_witness :
    (1 : ℝ) ≠ 0 ∧
    calculate_updated_stylus_position ![0, 0, 0] ![0, 0, 0, 1] ![10, 0, 0]
      ![0, 0, 0] ((1 : ℝ) • ![0, 0, 0, 1]) = ![10, 0, 0] :=
  ⟨one_ne_zero, C1_identity_reprojection ![0, 0, 0] ![10, 0, 0] ![0, 0, 0, 1] 1 one_ne_zero⟩

/-- Claim C5: translation-only invariance — same orientation quaternion and
a displaced position carry the target by exactly the same displacement. -/
theorem C5_translation_invariance (p s d : Vec3) (q : Quat) :
    calculate_updated_stylus_position p q s (p + d) q = s + d := by
  rw [reproject_same_rotation]
  abel

/-- Claim C10: quaternion scale and sign invariance — scaling a nonzero
quaternion by any nonzero scalar (in particular negating it) leaves the
rotation matrix unchanged, because the input is normalized before the
quadratic formula is applied. -/
theorem C10_scale_sign_invariance (q : Quat) (c : ℝ) (hq : q ≠ 0) (hc : c ≠ 0) :
    quaternion_to_rotation_matrix (c • q) = quaternion_to_rotation_matrix q :=
  rotmat_smul c q hc

/-- Witness for C10 at q = [0,0,0,1] and c = -1 (the sign-flip case). -/
theorem C10_scale_sign_invariance_witness :
    (![(0 : ℝ), 0, 0, 1] ≠ 0) ∧ ((-1 : ℝ) ≠ 0) ∧
    quaternion_to_rotation_matrix ((-1 : ℝ) • ![(0 : ℝ), 0, 0, 1]) =
      quaternion_to_rotation_matrix ![(0 : ℝ), 0, 0, 1] := by
  have hq : ![(0 : ℝ), 0, 0, 1] ≠ 0 := by
    intro h
    have h3 := congrFun h 3
    simp at h3
  exact ⟨hq, neg_ne_zero.mpr one_ne_zero,
    C10_scale_sign_invariance _ _ hq (neg_ne_zero.mpr one_ne_zero)⟩

/-- Claim C4: zero-quaternion fallback — the exact input [0,0,0,0] yields
the identity matrix, with no error signaled (the function is total). -/
theorem C4_zero_quaternion_fallback :
    quaternion_to_rotation_matrix ![0, 0, 0, 0] = 1 := by
  apply rotmat_of_sumsq_zero
  simp [sumsq]

/-- Claim C3: rotation orthonormality — for every nonzero quaternion, the
resulting matrix satisfies transpose(R) * R = 1 and det R = 1, and equals
the matrix of the normalized quaternion. -/
theorem C3_rotation_orthonormality (q : Quat) (hq : q ≠ 0) :
    (quaternion_to_rotation_matrix q).transpose * quaternion_to_rotation_matrix q = 1 ∧
    (quaternion_to_rotation_matrix q).det = 1 ∧
    quaternion_to_rotation_matrix q = quaternion_to_rotation_matrix (normalizedQuat q) := by
  have hs : sumsq q ≠ 0 := fun h => hq ((sumsq_eq_zero_iff q).mp h)
  refine ⟨rotmat_transpose_mul_self q, rotmat_det_one q hs, ?_⟩
  have hsn : Real.sqrt (sumsq q) ≠ 0 :=
    fun h0 => hs ((Real.sqrt_eq_zero (sumsq_nonneg q)).mp h0)
  have hnq : normalizedQuat q = (Real.sqrt (sumsq q))⁻¹ • q := by
    funext i
    simp [normalizedQuat, Pi.smul_apply, smul_eq_mul, div_eq_inv_mul]
  rw [hnq, rotmat_smul _ q (inv_ne_zero hsn)]

/-- Witness for C3 at q = [0,0,0,2] (nonzero, non-unit magnitude). -/
theorem C3_rotation_orthonormality_witness :
    (![(0 : ℝ), 0, 0, 2] ≠ 0) ∧
    ((quaternion_to_rotation_matrix ![(0 : ℝ), 0, 0, 2]).transpose *
        quaternion_to_rotation_matrix ![(0 : ℝ), 0, 0, 2] = 1 ∧
      (quaternion_to_rotation_matrix ![(0 : ℝ), 0, 0, 2]).det = 1 ∧
      quaternion_to_rotation_matrix ![(0 : ℝ), 0, 0, 2] =
        quaternion_to_rotation_matrix (normalizedQuat ![(0 : ℝ), 0, 0, 2])) := by
  have hq : ![(0 : ℝ), 0, 0, 2] ≠ 0 := by
    intro h
    have h3 := congrFun h 3
    simp at h3
  exact ⟨hq, C3_rotation_orthonormality _ hq⟩


/-- Claim C6: unit-conversion round-trip — converting to millimeters and
back to meters is the identity on every vector, with both conversions pure,
total, elementwise scalings. -/
theorem C6_unit_round_trip (v : List ℝ) :
    convert_to_meters (convert_to_millimeters v) = v := by
  unfold convert_to_meters convert_to_millimeters
  rw [List.map_map]
  have h : ((fun pos : ℝ => pos / 1000) ∘ fun pos : ℝ => pos * 1000) = id := by
    funext x
    exact mul_div_cancel_right₀ x (by norm_num : (1000 : ℝ) ≠ 0)
  rw [h, List.map_id]

/-- Claim C7: deviation magnitude is symmetric in its two arguments, and is
zero exactly when the two vectors agree componentwise; the function is
total on 3-vectors. -/
theorem C7_deviation_symmetry (a b : Vec3) :
    (calculate_position_error a b).magnitude = (calculate_position_error b a).magnitude ∧
    ((calculate_position_error a b).magnitude = 0 ↔ a = b) := by
  have hmag : ∀ u v : Vec3, (calculate_position_error u v).magnitude =
      Real.sqrt (∑ i : Fin 3, (v i - u i) ^ 2) := by
    intro u v
    simp [calculate_position_error]
  constructor
  · rw [hmag, hmag]
    congr 1
    apply Finset.sum_congr rfl
    intro i _
    ring
  · rw [hmag]
    rw [Real.sqrt_eq_zero (Finset.sum_nonneg fun i _ => sq_nonneg _)]
    constructor
    · intro h
      funext i
      have hz := (Finset.sum_eq_zero_iff_of_nonneg fun i _ => sq_nonneg _).mp h i
        (Finset.mem_univ i)
      have hbi : b i - a i = 0 := sq_eq_zero_iff.mp hz
      linarith
    · intro h
      subst h
      simp

theorem parseAll_of_mem_none (raws : List (Option CsvRow)) (h : none ∈ raws) :
    parseAll raws = none := by
  induction raws with
  | nil => cases h
  | cons a t ih =>
    cases a with
    | none => rfl
    | some v =>
      have ht : none ∈ t := by
        rcases List.mem_cons.mp h with h1 | h2
        · exact Option.noConfusion h1
        · exact h2
      simp [parseAll, ih ht]

/-- Counterexample to claim C8 as stated: `load_csv_data` on a missing
source does not produce an empty mapping — the exception escapes to the
caller. -/
theorem C8_fail_soft_counterexample :
    load_csv_data none = Except.error LoadError.fileNotFound := rfl

/-- Claim C8 as amended: only `RealtimeVisualizer.load_reference_data` is
fail-soft — on every bad source (missing file or malformed row) it yields
the empty mapping and never raises — while `load_csv_data` of
`visualize_points.py` lets an exception escape on every such source. -/
theorem C8_fail_soft_amended (src : CsvSource) (h : badSource src) :
    load_reference_data src = (fun _ => none) ∧
    ∃ e, load_csv_data src = Except.error e := by
  rcases h with rfl | ⟨raws, rfl, hmem⟩
  · exact ⟨rfl, ⟨LoadError.fileNotFound, rfl⟩⟩
  · have hm := parseAll_of_mem_none raws hmem
    constructor
    · simp [load_reference_data, hm]
    · refine ⟨LoadError.malformedRow, ?_⟩
      simp [load_csv_data, hm]

/-- Witness for the amended C8 at the concrete bad source of a missing
file. -/
theorem C8_fail_soft_amended_witness :
    badSource none ∧
    (load_reference_data none = (fun _ => none) ∧
     ∃ e, load_csv_data none = Except.error e) :=
  ⟨Or.inl rfl, C8_fail_soft_amended none (Or.inl rfl)⟩

/-- Claim C9: catalog lookup miss — an absent label makes the lookup step
return the explicit not-found result (no exception is modelled or needed:
the function is total), the catalog is unchanged, and every subsequent
lookup of a present label still returns its entry. -/
theorem C9_catalog_miss (points : PointCatalog) (label : String)
    (h : points label = none) :
    (lookup_mapped_point points label).1 = none ∧
    (lookup_mapped_point points label).2 = points ∧
    ∀ (l : String) (e : PointEntry), points l = some e →
      (lookup_mapped_point (lookup_mapped_point points label).2 l).1 =
        some (e.femur, e.stylus) := by
  refine ⟨?_, ?_, ?_⟩
  · simp [lookup_mapped_point, h]
  · simp [lookup_mapped_point, h]
  · intro l e he
    simp [lookup_mapped_point, h, he]

/-- Witness for C9 on a concrete one-entry catalog: the miss on "Z9"
returns not-found and the subsequent lookup of "L1" still succeeds. -/
theorem C9_catalog_miss_witness :
    witPts "Z9" = none ∧
    ((lookup_mapped_point witPts "Z9").1 = none ∧
     (lookup_mapped_point witPts "Z9").2 = witPts ∧
     (lookup_mapped_point (lookup_mapped_point witPts "Z9").2 "L1").1 =
       some (witEntry.femur, witEntry.stylus)) := by
  have h : witPts "Z9" = none := by
    simp [witPts]
  have hm := C9_catalog_miss witPts "Z9" h
  exact ⟨h, hm.1, hm.2.1, hm.2.2 "L1" witEntry (by simp [witPts])⟩

/-- Claim C2, evaluated at the failing input: a catalog row holding the
identity orientation, stored W-first as (W,X,Y,Z) = (1,0,0,0).  The
quaternion the loaders actually pass (`femur_rotation_loaded`, unreordered)
makes `quaternion_to_rotation_matrix` read x = 1, w = 0 and produce the
180-degree rotation diag(1,-1,-1), while the reordering required by the
spec and by the math module's own [x,y,z,w] docstring produces the identity
matrix; the two disagree. -/
theorem C2_quaternion_order_code_bug :
    quaternion_to_rotation_matrix (femur_rotation_loaded row0) =
      Matrix.of ![![1, 0, 0], ![0, -1, 0], ![0, 0, -1]] ∧
    quaternion_to_rotation_matrix (femur_rotation_reordered row0) = 1 ∧
    quaternion_to_rotation_matrix (femur_rotation_loaded row0) ≠
      quaternion_to_rotation_matrix (femur_rotation_reordered row0) := by
  have h1 : sumsq (femur_rotation_loaded row0) = 1 := by
    simp [sumsq, femur_rotation_loaded, row0]
  have h2 : sumsq (femur_rotation_reordered row0) = 1 := by
    simp [sumsq, femur_rotation_reordered, row0]
  have hL : quaternion_to_rotation_matrix (femur_rotation_loaded row0) =
      Matrix.of ![![1, 0, 0], ![0, -1, 0], ![0, 0, -1]] := by
    rw [rotmat_of_sumsq_ne_zero _ (by rw [h1]; exact one_ne_zero), h1, Real.sqrt_one]
    ext i j
    fin_cases i <;> fin_cases j <;>
      simp [rotFormula, femur_rotation_loaded, row0, Matrix.vecHead, Matrix.vecTail] <;>
      try norm_num
  have hR : quaternion_to_rotation_matrix (femur_rotation_reordered row0) = 1 := by
    rw [rotmat_of_sumsq_ne_zero _ (by rw [h2]; exact one_ne_zero), h2, Real.sqrt_one]
    ext i j
    fin_cases i <;> fin_cases j <;>
      simp [rotFormula, femur_rotation_reordered, row0, Matrix.one_apply,
        Matrix.vecHead, Matrix.vecTail] <;>
      try norm_num
  refine ⟨hL, hR, ?_⟩
  rw [hL, hR]
  intro hcontra
  have h11 := congrFun (congrFun hcontra 1) 1
  simp [Matrix.one_apply] at h11
  norm_num at h11

end OptiTrack
